import Mathlib

/-!
Verification of the ulog logging library core (header-only C++, `include/ulog/ulog.h`)
against its natural-language specification.

Strings are modelled at the byte level (`List Nat`, each element an `unsigned char`
value below 256), because the sanitizer `clean_message` works on raw bytes of a
`std::string`.  Side effects (console prints and observer callbacks) are modelled as
an explicit event trace returned next to the updated logger state.  Timestamps are an
opaque `Nat` passed by the caller.
-/

/-- Log level enumeration, from the `LogLevel` enum class
(`OFF = -1, TRACE = 0, DEBUG = 1, INFO = 2, WARN = 3, ERROR = 4, FATAL = 5`). -/
inductive LogLevel where
  | OFF
  | TRACE
  | DEBUG
  | INFO
  | WARN
  | ERROR
  | FATAL
deriving DecidableEq, Repr

/-- Underlying integer value of each enumerator, as declared in the C++ enum. -/
def LogLevel.toInt : LogLevel → Int
  | .OFF => -1
  | .TRACE => 0
  | .DEBUG => 1
  | .INFO => 2
  | .WARN => 3
  | .ERROR => 4
  | .FATAL => 5

/-- A log entry: timestamp, level, logger name and the final message text, from
`struct LogEntry`.  Names and messages are byte strings. -/
structure LogEntry where
  ts : Nat
  level : LogLevel
  logger_name : List Nat
  message : List Nat
deriving DecidableEq, Repr

/-- `LogBuffer`: an ordered sequence of entries with a maximum capacity
(`0` = unlimited), from `class LogBuffer`. -/
structure LogBuffer where
  capacity : Nat
  entries : List LogEntry
deriving DecidableEq, Repr

/-- A freshly constructed buffer (`explicit LogBuffer(size_t capacity = 0)`):
the given capacity and no entries. -/
def LogBuffer.new (capacity : Nat) : LogBuffer :=
  { capacity := capacity, entries := [] }

/-- `LogBuffer::add`: when `capacity_ > 0 && entries_.size() >= capacity_`,
first erase the front entry, then push the new entry at the back. -/
def LogBuffer.add (b : LogBuffer) (e : LogEntry) : LogBuffer :=
  if 0 < b.capacity ∧ b.capacity ≤ b.entries.length then
    { b with entries := b.entries.tail ++ [e] }
  else
    { b with entries := b.entries ++ [e] }

/-- A sequence of `add` calls, in order. -/
def LogBuffer.addAll (b : LogBuffer) (es : List LogEntry) : LogBuffer :=
  es.foldl LogBuffer.add b

/-- `LogBuffer::size`: number of stored entries. -/
def LogBuffer.size (b : LogBuffer) : Nat :=
  b.entries.length

/-- Decimal digits of `n` as ASCII bytes, the byte-level image of
`std::to_string(i)` for an unsigned index. -/
def natToBytes (n : Nat) : List Nat :=
  (Nat.toDigits 10 n).map Char.toNat

/-- The anonymous placeholder pattern: the three bytes of the template token
made of an opening brace, a question mark and a closing brace. -/
def anonPattern : List Nat :=
  [123, 63, 125]

/-- The positional placeholder pattern for index `i`: an opening brace, the
decimal digits of `i`, a closing brace (`"{" + std::to_string(i) + "}"`). -/
def posPattern (i : Nat) : List Nat :=
  123 :: natToBytes i ++ [125]

/-- Split `s` at the first occurrence of `pat` (the byte-level image of
`std::string::find`): returns the part strictly before the occurrence and the
part strictly after it. -/
def splitOnFirst (pat : List Nat) : List Nat → Option (List Nat × List Nat)
  | [] => if pat.isPrefixOf ([] : List Nat) then some ([], []) else none
  | c :: cs =>
    if pat.isPrefixOf (c :: cs) then
      some ([], List.drop pat.length (c :: cs))
    else
      match splitOnFirst pat cs with
      | some (pre, post) => some (c :: pre, post)
      | none => none

/-- First pass of `MessageFormatter::format_impl`: the `while` loop replacing
anonymous placeholders left to right, consuming arguments in call order.  After
each replacement the scan position is advanced past the inserted text
(`pos += args[arg_index - 1].length()`), so inserted text is not rescanned by
this pass; the loop stops when either the arguments are exhausted or no further
occurrence exists. -/
def substAnonymous (s : List Nat) (args : List (List Nat)) : List Nat :=
  match args with
  | [] => s
  | a :: rest =>
    match splitOnFirst anonPattern s with
    | none => s
    | some (pre, post) => pre ++ a ++ substAnonymous post rest

/-- One scan of the inner `while` loop of the positional pass: replace every
occurrence of `pat` by `rep`, left to right, advancing past each inserted
replacement (`pos += args[i].length()`).  The `fuel` argument bounds the scan
by the length of the scanned text; every step consumes at least one byte of
the text when `pat` is nonempty, so a fuel equal to the text length never runs
out in any use below (all patterns have at least three bytes). -/
def replaceAllFuel (pat rep : List Nat) : Nat → List Nat → List Nat
  | 0, s => s
  | _ + 1, [] => []
  | fuel + 1, c :: cs =>
    if pat.isPrefixOf (c :: cs) then
      rep ++ replaceAllFuel pat rep fuel (List.drop pat.length (c :: cs))
    else
      c :: replaceAllFuel pat rep fuel cs

/-- Replace every occurrence of `pat` in `s` by `rep`, scanning left to right
and skipping over inserted text. -/
def replaceAll (pat rep s : List Nat) : List Nat :=
  replaceAllFuel pat rep s.length s

/-- Second pass of `MessageFormatter::format_impl`: the `for` loop over
`i = 0 .. args.size()-1`; for each index, every occurrence of the positional
pattern in the current result is replaced by argument `i` of the original
argument list. -/
def substPositionalAll (s : List Nat) (args : List (List Nat)) : List Nat :=
  args.enum.foldl (fun acc p => replaceAll (posPattern p.1) p.2 acc) s

/-- `MessageFormatter::format_impl`: the anonymous pass followed by the
positional pass, both over the original argument list. -/
def MessageFormatter.format_impl (fmt : List Nat) (args : List (List Nat)) : List Nat :=
  substPositionalAll (substAnonymous fmt args) args

/-- `MessageFormatter::format` with the arguments already stringified; the
zero-argument C++ overload returns the template directly, which coincides with
`format_impl` at an empty argument list. -/
def MessageFormatter.format (fmt : List Nat) (args : List (List Nat)) : List Nat :=
  MessageFormatter.format_impl fmt args

/-- One hex digit (uppercase), as an ASCII byte: `0..9 -> '0'..'9'`,
`10..15 -> 'A'..'F'`. -/
def hexDigit (n : Nat) : Nat :=
  if n < 10 then 48 + n else 55 + n

/-- `Logger::char_to_hex`: the four bytes backslash, `x`, and the two uppercase
hex digits of the byte value (`setw(2)`, `setfill('0')`, `uppercase`). -/
def char_to_hex (ch : Nat) : List Nat :=
  [92, 120, hexDigit ((ch / 16) % 16), hexDigit (ch % 16)]

/-- Body of `Logger::clean_message`, byte for byte, with a fuel argument
bounding the scan: every step of the source loop advances the index by at
least one, so a fuel equal to the length of the scanned bytes never runs out.
Bytes at `0x80` and above are dispatched on the UTF-8 lead patterns
(`& 0xE0 == 0xC0`, `& 0xF0 == 0xE0`, `& 0xF8 == 0xF0`); a sequence with
enough trailing bytes is copied whole, a lead without enough trailing bytes
and any other byte at `0x80` or above is hex-escaped.  Control bytes below 32
become a space when they are one of HT, LF, CR, VT, FF and a hex escape
otherwise; bytes 32..127 are kept. -/
def clean_message_fuel : Nat → List Nat → List Nat
  | 0, _ => []
  | _ + 1, [] => []
  | fuel + 1, ch :: rest =>
    if 0x80 ≤ ch then
      if ch &&& 0xE0 = 0xC0 then
        match rest with
        | b1 :: rest2 => ch :: b1 :: clean_message_fuel fuel rest2
        | [] => char_to_hex ch ++ clean_message_fuel fuel rest
      else if ch &&& 0xF0 = 0xE0 then
        match rest with
        | b1 :: b2 :: rest3 => ch :: b1 :: b2 :: clean_message_fuel fuel rest3
        | _ => char_to_hex ch ++ clean_message_fuel fuel rest
      else if ch &&& 0xF8 = 0xF0 then
        match rest with
        | b1 :: b2 :: b3 :: rest4 => ch :: b1 :: b2 :: b3 :: clean_message_fuel fuel rest4
        | _ => char_to_hex ch ++ clean_message_fuel fuel rest
      else
        char_to_hex ch ++ clean_message_fuel fuel rest
    else if ch < 32 then
      if ch = 9 ∨ ch = 10 ∨ ch = 13 ∨ ch = 11 ∨ ch = 12 then
        32 :: clean_message_fuel fuel rest
      else
        char_to_hex ch ++ clean_message_fuel fuel rest
    else
      ch :: clean_message_fuel fuel rest

/-- `Logger::clean_message`. -/
def clean_message (s : List Nat) : List Nat :=
  clean_message_fuel s.length s

/-- A byte is an uppercase hexadecimal digit character. -/
def isUpperHexDigitByte (c : Nat) : Prop :=
  (48 ≤ c ∧ c ≤ 57) ∨ (65 ≤ c ∧ c ≤ 70)

instance (c : Nat) : Decidable (isUpperHexDigitByte c) := by
  unfold isUpperHexDigitByte
  infer_instance

/-- An observable side effect of a logger operation.  Observers are identified
by a numeric handle (the identity of the `shared_ptr<LogObserver>`). -/
inductive Event where
  | console (e : LogEntry)
  | newMessage (obs : Nat) (e : LogEntry)
  | registered (obs : Nat) (name : List Nat)
  | unregistered (obs : Nat) (name : List Nat)
deriving DecidableEq, Repr

/-- The mutable state of `class Logger`: name, sink toggles, level threshold,
cleaning flag, the optional owned buffer and the ordered observer list. -/
structure Logger where
  name : List Nat
  console_enabled : Bool
  buffer_enabled : Bool
  log_level : LogLevel
  clean_enabled : Bool
  buffer : Option LogBuffer
  observers : List Nat
deriving DecidableEq, Repr

/-- The `Logger` constructor: console on, buffer off, level `INFO`, message
cleaning on, no buffer object, no observers. -/
def defaultLogger (name : List Nat) : Logger :=
  { name := name
    console_enabled := true
    buffer_enabled := false
    log_level := .INFO
    clean_enabled := true
    buffer := none
    observers := [] }

/-- `Logger::set_log_level`. -/
def Logger.set_log_level (l : Logger) (lvl : LogLevel) : Logger :=
  { l with log_level := lvl }

/-- The `LogEntry` built by `Logger::log` for a formatted message: the message
is cleaned when cleaning is enabled, and stamped with level and logger name. -/
def Logger.entryFor (l : Logger) (ts : Nat) (lvl : LogLevel) (msg : List Nat) : LogEntry :=
  { ts := ts
    level := lvl
    logger_name := l.name
    message := if l.clean_enabled then clean_message msg else msg }

/-- The body of `Logger::log` after the level gate: build the entry, print it
to the console when the console sink is enabled, append it to the buffer when
`buffer_enabled_ && buffer_`, then notify every observer in registration
order. -/
def Logger.emit (l : Logger) (ts : Nat) (lvl : LogLevel) (msg : List Nat) : Logger × List Event :=
  let entry := l.entryFor ts lvl msg
  let l' :=
    match l.buffer_enabled, l.buffer with
    | true, some b => { l with buffer := some (b.add entry) }
    | _, _ => l
  (l',
    (if l.console_enabled then [Event.console entry] else [])
      ++ l.observers.map (fun o => Event.newMessage o entry))

/-- `Logger::log`: return immediately when
`current_level == OFF || level < current_level`; otherwise format the message
and run the sink fan-out. -/
def Logger.log (l : Logger) (ts : Nat) (lvl : LogLevel) (fmt : List Nat)
    (args : List (List Nat)) : Logger × List Event :=
  if l.log_level = .OFF ∨ lvl.toInt < l.log_level.toInt then
    (l, [])
  else
    l.emit ts lvl (MessageFormatter.format fmt args)

/-- `Logger::trace`. -/
def Logger.trace (l : Logger) (ts : Nat) (fmt : List Nat) (args : List (List Nat)) :
    Logger × List Event :=
  l.log ts .TRACE fmt args

/-- `Logger::debug`. -/
def Logger.debug (l : Logger) (ts : Nat) (fmt : List Nat) (args : List (List Nat)) :
    Logger × List Event :=
  l.log ts .DEBUG fmt args

/-- `Logger::info`. -/
def Logger.info (l : Logger) (ts : Nat) (fmt : List Nat) (args : List (List Nat)) :
    Logger × List Event :=
  l.log ts .INFO fmt args

/-- `Logger::warn`. -/
def Logger.warn (l : Logger) (ts : Nat) (fmt : List Nat) (args : List (List Nat)) :
    Logger × List Event :=
  l.log ts .WARN fmt args

/-- `Logger::error`. -/
def Logger.error (l : Logger) (ts : Nat) (fmt : List Nat) (args : List (List Nat)) :
    Logger × List Event :=
  l.log ts .ERROR fmt args

/-- `Logger::fatal`. -/
def Logger.fatal (l : Logger) (ts : Nat) (fmt : List Nat) (args : List (List Nat)) :
    Logger × List Event :=
  l.log ts .FATAL fmt args

/-- Modelled from the spec: the `*_supplier` methods of `Logger` are declared
by the spec (sections 4.5 and 6) and exercised by the tests and demos under
`src/`, but their definitions are not present in the header under `src/`.
Faithful to the spec's words: perform the gate check first; if and only if it
passes, invoke the thunk exactly once to produce the message string and run
the normal downstream path (clean, build entry, fan out to sinks).  The thunk
threads an explicit state so that the number of invocations is observable. -/
def Logger.log_supplier {σ : Type} (l : Logger) (ts : Nat) (lvl : LogLevel)
    (thunk : σ → σ × List Nat) (s : σ) : (Logger × List Event) × σ :=
  if l.log_level = .OFF ∨ lvl.toInt < l.log_level.toInt then
    ((l, []), s)
  else
    let (s', msg) := thunk s
    (l.emit ts lvl msg, s')

/-- Modelled from the spec: `trace_supplier`. -/
def Logger.trace_supplier {σ : Type} (l : Logger) (ts : Nat)
    (thunk : σ → σ × List Nat) (s : σ) : (Logger × List Event) × σ :=
  l.log_supplier ts .TRACE thunk s

/-- Modelled from the spec: `debug_supplier`. -/
def Logger.debug_supplier {σ : Type} (l : Logger) (ts : Nat)
    (thunk : σ → σ × List Nat) (s : σ) : (Logger × List Event) × σ :=
  l.log_supplier ts .DEBUG thunk s

/-- Modelled from the spec: `info_supplier`. -/
def Logger.info_supplier {σ : Type} (l : Logger) (ts : Nat)
    (thunk : σ → σ × List Nat) (s : σ) : (Logger × List Event) × σ :=
  l.log_supplier ts .INFO thunk s

/-- Modelled from the spec: `warn_supplier`. -/
def Logger.warn_supplier {σ : Type} (l : Logger) (ts : Nat)
    (thunk : σ → σ × List Nat) (s : σ) : (Logger × List Event) × σ :=
  l.log_supplier ts .WARN thunk s

/-- Modelled from the spec: `error_supplier`. -/
def Logger.error_supplier {σ : Type} (l : Logger) (ts : Nat)
    (thunk : σ → σ × List Nat) (s : σ) : (Logger × List Event) × σ :=
  l.log_supplier ts .ERROR thunk s

/-- Modelled from the spec: `fatal_supplier`. -/
def Logger.fatal_supplier {σ : Type} (l : Logger) (ts : Nat)
    (thunk : σ → σ × List Nat) (s : σ) : (Logger × List Event) × σ :=
  l.log_supplier ts .FATAL thunk s

/-- A thunk over a counter state: each invocation increments the counter and
yields the fixed message `m`. -/
def countingThunk (m : List Nat) : Nat → Nat × List Nat :=
  fun n => (n + 1, m)

/-- `Logger::add_observer`: append the handle and invoke its registered
callback with the logger's name. -/
def Logger.add_observer (l : Logger) (obs : Nat) : Logger × List Event :=
  ({ l with observers := l.observers ++ [obs] }, [Event.registered obs l.name])

/-- `Logger::remove_observer`: locate the first registration equal to the
handle (`std::find`); when present, invoke its unregistered callback and erase
that registration; otherwise do nothing. -/
def Logger.remove_observer (l : Logger) (obs : Nat) : Logger × List Event :=
  if obs ∈ l.observers then
    ({ l with observers := l.observers.erase obs }, [Event.unregistered obs l.name])
  else
    (l, [])

/-- The new-message notification events of a trace, in order. -/
def newMessageEvents (evs : List Event) : List Event :=
  evs.filter fun e =>
    match e with
    | .newMessage _ _ => true
    | _ => false

/-- `LoggerRegistry` state: the stored association of names to loggers
(an `unordered_map`, modelled as an association list). -/
structure LoggerRegistry where
  loggers : List (List Nat × Logger)
deriving DecidableEq, Repr

/-- `LoggerRegistry::get_logger(name)`: return the stored logger for the name,
or construct, store and return a default-configured one when absent. -/
def LoggerRegistry.get_logger (r : LoggerRegistry) (name : List Nat) :
    LoggerRegistry × Logger :=
  match r.loggers.lookup name with
  | some l => (r, l)
  | none =>
    let l := defaultLogger name
    ({ loggers := (name, l) :: r.loggers }, l)

/-- `LoggerRegistry::get_logger(name, factory)`: return the stored logger when
present (the factory is not invoked); otherwise invoke the factory once with
the name, store and return its result.  The factory threads an explicit state
so that the number of invocations is observable. -/
def LoggerRegistry.get_logger_with_factory {σ : Type} (r : LoggerRegistry)
    (name : List Nat) (factory : σ → List Nat → σ × Logger) (s : σ) :
    (LoggerRegistry × Logger) × σ :=
  match r.loggers.lookup name with
  | some l => ((r, l), s)
  | none =>
    let (s', l) := factory s name
    (({ loggers := (name, l) :: r.loggers }, l), s')

/-- A factory over a counter state: each invocation increments the counter and
yields the fixed logger `l`. -/
def countingFactory (l : Logger) : Nat → List Nat → Nat × Logger :=
  fun n _ => (n + 1, l)

/-! ## Theorems -/

theorem clean_message_fuel_nil (f : Nat) : clean_message_fuel f [] = [] := by
  cases f <;> rfl

/-- Helper: `LogBuffer.addAll` on a buffer of positive capacity `C` holding at
most `C` entries keeps exactly the most recent `C` of all inserted entries. -/
theorem addAll_entries_pos (C : Nat) (hC : 0 < C) :
    ∀ (es : List LogEntry) (b : LogBuffer), b.capacity = C → b.entries.length ≤ C →
      (b.addAll es).entries = (b.entries ++ es).drop (b.entries.length + es.length - C) := by
  intro es
  induction es with
  | nil =>
    intro b _ hlen
    simp [LogBuffer.addAll, Nat.sub_eq_zero_of_le hlen]
  | cons e es ih =>
    intro b hcap hlen
    have hstep : b.addAll (e :: es) = (b.add e).addAll es := by
      simp [LogBuffer.addAll]
    rw [hstep]
    by_cases hfull : C ≤ b.entries.length
    · have hlenC : b.entries.length = C := le_antisymm hlen hfull
      have hadd : b.add e = { b with entries := b.entries.tail ++ [e] } := by
        simp only [LogBuffer.add, hcap]
        rw [if_pos ⟨hC, by omega⟩]
      cases hbe : b.entries with
      | nil => rw [hbe] at hlenC; simp at hlenC; omega
      | cons hd tl =>
        have htl : tl.length + 1 = C := by
          have := hlenC; rw [hbe] at this; simpa using this
        have hlen' : (b.add e).entries.length ≤ C := by
          rw [hadd, hbe]; simp; omega
        have hcap' : (b.add e).capacity = C := by rw [hadd]; exact hcap
        have h := ih (b.add e) hcap' hlen'
        rw [h, hadd, hbe]
        simp only [List.tail_cons]
        have hidx1 : (tl ++ [e]).length + es.length - C = es.length := by
          simp; omega
        have hidx2 : (hd :: tl).length + (e :: es).length - C = es.length + 1 := by
          simp; omega
        rw [hidx1, hidx2]
        rw [List.cons_append, List.drop_succ_cons, List.append_assoc,
          List.singleton_append]
    · have hadd : b.add e = { b with entries := b.entries ++ [e] } := by
        simp only [LogBuffer.add, hcap]
        rw [if_neg (by omega)]
      have hlen' : (b.add e).entries.length ≤ C := by
        rw [hadd]; simp; omega
      have hcap' : (b.add e).capacity = C := by rw [hadd]; exact hcap
      have h := ih (b.add e) hcap' hlen'
      rw [h, hadd]
      simp only [List.append_assoc, List.singleton_append]
      have hidx : (b.entries ++ [e]).length + es.length - C
          = b.entries.length + (e :: es).length - C := by
        simp; omega
      rw [hidx]

/-- Helper: with capacity `0` the buffer never evicts. -/
theorem addAll_entries_zero :
    ∀ (es : List LogEntry) (b : LogBuffer), b.capacity = 0 →
      (b.addAll es).entries = b.entries ++ es := by
  intro es
  induction es with
  | nil => intro b _; simp [LogBuffer.addAll]
  | cons e es ih =>
    intro b hcap
    have hstep : b.addAll (e :: es) = (b.add e).addAll es := by
      simp [LogBuffer.addAll]
    have hadd : b.add e = { b with entries := b.entries ++ [e] } := by
      simp only [LogBuffer.add, hcap]
      rw [if_neg (by omega)]
    rw [hstep, ih (b.add e) (by rw [hadd]; exact hcap), hadd]
    simp

/-- Claim C3.  Buffer bound: starting from a fresh buffer of capacity `C`, after a
sequence of `N` `add` calls, if `C > 0` then `size() = min N C` and the buffer
holds exactly the last `min N C` inserted entries in insertion order (the
oldest are evicted first); if `C = 0` then `size() = N` and all entries are
retained in insertion order. -/
theorem ulog_C3_buffer_bound (C : Nat) (es : List LogEntry) :
    (0 < C →
      ((LogBuffer.new C).addAll es).size = min es.length C ∧
      ((LogBuffer.new C).addAll es).entries = es.drop (es.length - C)) ∧
    (C = 0 →
      ((LogBuffer.new C).addAll es).size = es.length ∧
      ((LogBuffer.new C).addAll es).entries = es) := by
  constructor
  · intro hC
    have h := addAll_entries_pos C hC es (LogBuffer.new C) rfl (by simp [LogBuffer.new])
    have h' : ((LogBuffer.new C).addAll es).entries = es.drop (es.length - C) := by
      simpa [LogBuffer.new] using h
    refine ⟨?_, h'⟩
    rw [LogBuffer.size, h', List.length_drop]
    omega
  · intro h0
    subst h0
    have h := addAll_entries_zero es (LogBuffer.new 0) rfl
    have h' : ((LogBuffer.new 0).addAll es).entries = es := by
      simpa [LogBuffer.new] using h
    exact ⟨by rw [LogBuffer.size, h'], h'⟩

/-- Witness for C3 at capacity 2 and three insertions: the spec's end-to-end
scenario, where the two most recent entries remain. -/
theorem ulog_C3_witness :
    ((LogBuffer.new 2).addAll
        [⟨0, .INFO, [], [97]⟩, ⟨1, .INFO, [], [98]⟩, ⟨2, .INFO, [], [99]⟩]).size = 2 ∧
    ((LogBuffer.new 2).addAll
        [⟨0, .INFO, [], [97]⟩, ⟨1, .INFO, [], [98]⟩, ⟨2, .INFO, [], [99]⟩]).entries
      = [⟨1, .INFO, [], [98]⟩, ⟨2, .INFO, [], [99]⟩] := by
  have h := (ulog_C3_buffer_bound 2
    [⟨0, .INFO, [], [97]⟩, ⟨1, .INFO, [], [98]⟩, ⟨2, .INFO, [], [99]⟩]).1 (by decide)
  exact ⟨h.1, h.2⟩

/-- Claim C4.  Two-pass formatter semantics: `format_impl` substitutes anonymous
placeholders first, left to right, consuming arguments in call order, and then
replaces every positional placeholder occurrence using the original argument
list, so positional indices are independent of anonymous consumption and may
re-reference an argument already consumed anonymously — the template made of
an anonymous placeholder, a space and positional placeholder 0, applied to the
single argument `"a"`, yields `"a a"`, and with the template anonymous,
anonymous, positional 1 over `"a" "b"` yields `"a b b"`. -/
theorem ulog_C4_formatter_two_pass :
    (∀ fmt args, MessageFormatter.format_impl fmt args =
      substPositionalAll (substAnonymous fmt args) args) ∧
    MessageFormatter.format_impl [123, 63, 125, 32, 123, 48, 125] [[97]] = [97, 32, 97] ∧
    MessageFormatter.format_impl [123, 63, 125, 32, 123, 63, 125, 32, 123, 49, 125]
      [[97], [98]] = [97, 32, 98, 32, 98] :=
  ⟨fun _ _ => rfl, by decide, by decide⟩

/-- Claim C6.  Formatter fallback behavior is never an error: with zero arguments
the template is returned unchanged; once arguments are exhausted remaining
anonymous placeholders stay verbatim; an out-of-range positional placeholder
stays verbatim; excess arguments are ignored.  The formatter is a total Lean
function, so it returns a string on every input. -/
theorem ulog_C6_formatter_fallback :
    (∀ fmt, MessageFormatter.format fmt [] = fmt) ∧
    MessageFormatter.format [123, 63, 125, 32, 123, 63, 125] [[97]]
      = [97, 32, 123, 63, 125] ∧
    MessageFormatter.format [123, 53, 125] [[111, 110, 108, 121]] = [123, 53, 125] ∧
    MessageFormatter.format [123, 48, 125] [[97], [98], [99]] = [97] :=
  ⟨fun _ => rfl, by decide, by decide, by decide⟩

/-- Claim C10.  Removing an observer handle that is not registered leaves the
observer list (and the whole logger) unchanged and invokes no callback. -/
theorem ulog_C10_remove_unregistered_noop (l : Logger) (obs : Nat)
    (h : obs ∉ l.observers) :
    l.remove_observer obs = (l, []) := by
  simp [Logger.remove_observer, h]

/-- Witness for C10: removing handle 7 from a fresh logger with no observers
does nothing. -/
theorem ulog_C10_witness :
    (defaultLogger []).remove_observer 7 = (defaultLogger [], []) :=
  ulog_C10_remove_unregistered_noop (defaultLogger []) 7 (by decide)

/-- Claim C1.  Gate correctness: for a logger with the console sink enabled and a
buffer enabled and present, a level-method call at level `L` with threshold
`T` prints the entry to the console, appends it to the buffer and notifies
every observer in registration order if and only if `T != OFF && L >= T`;
when the gate rejects, the call returns immediately with the logger unchanged
and no events (so no formatting result is observable anywhere).  The threshold
is `INFO` on a default-constructed logger and changes only via
`set_log_level`; each of the six level methods is the gated `log` at its
level. -/
theorem ulog_C1_gate_correctness (l : Logger) (b : LogBuffer) (ts : Nat)
    (lvl : LogLevel) (fmt : List Nat) (args : List (List Nat))
    (hc : l.console_enabled = true) (hb : l.buffer_enabled = true)
    (hbuf : l.buffer = some b) :
    (l.log_level ≠ .OFF ∧ l.log_level.toInt ≤ lvl.toInt →
      l.log ts lvl fmt args =
        ({ l with buffer := some (b.add (l.entryFor ts lvl (MessageFormatter.format fmt args))) },
          Event.console (l.entryFor ts lvl (MessageFormatter.format fmt args)) ::
            l.observers.map (fun o =>
              Event.newMessage o (l.entryFor ts lvl (MessageFormatter.format fmt args))))) ∧
    (l.log_level = .OFF ∨ lvl.toInt < l.log_level.toInt →
      l.log ts lvl fmt args = (l, [])) ∧
    (defaultLogger l.name).log_level = .INFO ∧
    (∀ t, (l.set_log_level t).log_level = t) ∧
    l.trace ts fmt args = l.log ts .TRACE fmt args ∧
    l.debug ts fmt args = l.log ts .DEBUG fmt args ∧
    l.info ts fmt args = l.log ts .INFO fmt args ∧
    l.warn ts fmt args = l.log ts .WARN fmt args ∧
    l.error ts fmt args = l.log ts .ERROR fmt args ∧
    l.fatal ts fmt args = l.log ts .FATAL fmt args := by
  refine ⟨?_, ?_, rfl, fun _ => rfl, rfl, rfl, rfl, rfl, rfl, rfl⟩
  · intro h
    have hcond : ¬(l.log_level = .OFF ∨ lvl.toInt < l.log_level.toInt) := by
      rintro (h1 | h2)
      · exact h.1 h1
      · omega
    rw [Logger.log, if_neg hcond]
    simp only [Logger.emit, hb, hbuf, hc, if_pos]
    rfl
  · intro h
    rw [Logger.log, if_pos h]

/-- Witness for C1: a default logger with a capacity-2 buffer enabled and one
observer, logging at ERROR against threshold INFO (accepted), and at DEBUG
(rejected). -/
theorem ulog_C1_witness :
    Logger.log
      { name := [], console_enabled := true, buffer_enabled := true,
        log_level := .INFO, clean_enabled := true,
        buffer := some (LogBuffer.new 2), observers := [5] } 0 .ERROR [104] []
      = ({ name := [], console_enabled := true, buffer_enabled := true,
           log_level := .INFO, clean_enabled := true,
           buffer := some ⟨2, [⟨0, .ERROR, [], [104]⟩]⟩, observers := [5] },
         [Event.console ⟨0, .ERROR, [], [104]⟩,
          Event.newMessage 5 ⟨0, .ERROR, [], [104]⟩]) ∧
    Logger.log
      { name := [], console_enabled := true, buffer_enabled := true,
        log_level := .INFO, clean_enabled := true,
        buffer := some (LogBuffer.new 2), observers := [5] } 0 .DEBUG [104] []
      = ({ name := [], console_enabled := true, buffer_enabled := true,
           log_level := .INFO, clean_enabled := true,
           buffer := some (LogBuffer.new 2), observers := [5] }, []) := by
  constructor
  · have h := (ulog_C1_gate_correctness
      { name := [], console_enabled := true, buffer_enabled := true,
        log_level := .INFO, clean_enabled := true,
        buffer := some (LogBuffer.new 2), observers := [5] }
      (LogBuffer.new 2) 0 .ERROR [104] [] rfl rfl rfl).1 (by decide)
    rw [h]
    rfl
  · exact (ulog_C1_gate_correctness
      { name := [], console_enabled := true, buffer_enabled := true,
        log_level := .INFO, clean_enabled := true,
        buffer := some (LogBuffer.new 2), observers := [5] }
      (LogBuffer.new 2) 0 .DEBUG [104] [] rfl rfl rfl).2.1 (by decide)

/-- Helper: the constructor `Event.newMessage · e` is injective in the
observer handle. -/
theorem newMessage_handle_injective (e : LogEntry) :
    Function.Injective (fun o => Event.newMessage o e) := by
  intro a b h
  simpa using h

/-- Helper: the new-message notifications of an accepted `log` call are
exactly one per registration, in registration order. -/
theorem log_newMessageEvents (l : Logger) (ts : Nat) (lvl : LogLevel)
    (fmt : List Nat) (args : List (List Nat))
    (h : l.log_level ≠ .OFF ∧ l.log_level.toInt ≤ lvl.toInt) :
    newMessageEvents (l.log ts lvl fmt args).2 =
      l.observers.map (fun o =>
        Event.newMessage o (l.entryFor ts lvl (MessageFormatter.format fmt args))) := by
  have hcond : ¬(l.log_level = .OFF ∨ lvl.toInt < l.log_level.toInt) := by
    rintro (h1 | h2)
    · exact h.1 h1
    · omega
  rw [Logger.log, if_neg hcond]
  rw [Logger.emit]
  simp only [newMessageEvents, List.filter_append, List.filter_map]
  have h1 : ∀ (evs : List Event),
      (if l.console_enabled then
        [Event.console (l.entryFor ts lvl (MessageFormatter.format fmt args))]
       else []).filter (fun e => match e with | .newMessage _ _ => true | _ => false)
      = [] := by
    intro _
    by_cases hc : l.console_enabled <;> simp [hc]
  rw [h1 []]
  simp only [List.nil_append]
  exact congrArg (List.map _) (List.filter_eq_self.mpr (fun a _ => rfl))

/-- Helper: in the events of an accepted `log` call, the notification for a
given handle occurs as many times as the handle is registered. -/
theorem log_count_newMessage (l : Logger) (ts : Nat) (lvl : LogLevel)
    (fmt : List Nat) (args : List (List Nat)) (o : Nat)
    (h : l.log_level ≠ .OFF ∧ l.log_level.toInt ≤ lvl.toInt) :
    (l.log ts lvl fmt args).2.count
        (Event.newMessage o (l.entryFor ts lvl (MessageFormatter.format fmt args)))
      = l.observers.count o := by
  have hcond : ¬(l.log_level = .OFF ∨ lvl.toInt < l.log_level.toInt) := by
    rintro (h1 | h2)
    · exact h.1 h1
    · omega
  rw [Logger.log, if_neg hcond, Logger.emit]
  simp only [List.count_append]
  have h1 : (if l.console_enabled then
      [Event.console (l.entryFor ts lvl (MessageFormatter.format fmt args))]
     else []).count
      (Event.newMessage o (l.entryFor ts lvl (MessageFormatter.format fmt args))) = 0 := by
    by_cases hc : l.console_enabled <;> simp [hc, List.count_cons]
  rw [h1, List.count_map_of_injective _ _
    (newMessage_handle_injective (l.entryFor ts lvl (MessageFormatter.format fmt args))) o]
  omega

/-- Claim C7.  Observer lifecycle: `add_observer` appends the handle and invokes its
registered callback exactly once with the logger's name; `remove_observer` of
a registered handle invokes its unregistered callback exactly once and erases
the first matching registration; an accepted message is delivered to the
new-message callback once per registration, in registration order, hence
exactly once per observer when no handle is registered twice. -/
theorem ulog_C7_observer_lifecycle (l : Logger) (obs : Nat) :
    (l.add_observer obs =
      ({ l with observers := l.observers ++ [obs] }, [Event.registered obs l.name])) ∧
    (obs ∈ l.observers →
      l.remove_observer obs =
        ({ l with observers := l.observers.erase obs }, [Event.unregistered obs l.name])) ∧
    (∀ ts lvl fmt args, l.log_level ≠ .OFF ∧ l.log_level.toInt ≤ lvl.toInt →
      newMessageEvents (l.log ts lvl fmt args).2 =
        l.observers.map (fun o =>
          Event.newMessage o (l.entryFor ts lvl (MessageFormatter.format fmt args)))) ∧
    (∀ ts lvl fmt args, l.log_level ≠ .OFF ∧ l.log_level.toInt ≤ lvl.toInt →
      obs ∈ l.observers → l.observers.Nodup →
      (l.log ts lvl fmt args).2.count
          (Event.newMessage obs (l.entryFor ts lvl (MessageFormatter.format fmt args))) = 1) := by
  refine ⟨rfl, ?_, ?_, ?_⟩
  · intro h
    simp [Logger.remove_observer, h]
  · intro ts lvl fmt args h
    exact log_newMessageEvents l ts lvl fmt args h
  · intro ts lvl fmt args h hmem hnodup
    rw [log_count_newMessage l ts lvl fmt args obs h]
    exact List.count_eq_one_of_mem hnodup hmem

/-- Witness for C7: a logger with observers 4 and 5; removing 4, and the
delivery of an accepted WARN message once to each observer. -/
theorem ulog_C7_witness :
    Logger.remove_observer
      { name := [], console_enabled := true, buffer_enabled := false,
        log_level := .INFO, clean_enabled := true, buffer := none, observers := [4, 5] } 4
      = ({ name := [], console_enabled := true, buffer_enabled := false,
           log_level := .INFO, clean_enabled := true, buffer := none, observers := [5] },
         [Event.unregistered 4 []]) ∧
    newMessageEvents
      (Logger.log
        { name := [], console_enabled := true, buffer_enabled := false,
          log_level := .INFO, clean_enabled := true, buffer := none,
          observers := [4, 5] } 0 .WARN [104] []).2
      = [Event.newMessage 4 ⟨0, .WARN, [], [104]⟩,
         Event.newMessage 5 ⟨0, .WARN, [], [104]⟩] ∧
    (Logger.log
        { name := [], console_enabled := true, buffer_enabled := false,
          log_level := .INFO, clean_enabled := true, buffer := none,
          observers := [4, 5] } 0 .WARN [104] []).2.count
        (Event.newMessage 4 ⟨0, .WARN, [], [104]⟩) = 1 := by
  have h := ulog_C7_observer_lifecycle
    { name := [], console_enabled := true, buffer_enabled := false,
      log_level := .INFO, clean_enabled := true, buffer := none, observers := [4, 5] } 4
  refine ⟨?_, ?_, ?_⟩
  · have h2 := h.2.1 (by decide)
    rw [h2]
    rfl
  · have h3 := h.2.2.1 0 .WARN [104] [] (by decide)
    rw [h3]
    rfl
  · have h4 := h.2.2.2 0 .WARN [104] [] (by decide) (by decide) (by decide)
    exact h4

/-- Claim C9.  Duplicate registration, single removal: when a handle is registered
twice, one `remove_observer` call invokes the unregistered callback exactly
once and erases only the first matching registration; the remaining
registration still receives exactly one new-message notification per accepted
message, until a second `remove_observer` call removes it. -/
theorem ulog_C9_duplicate_remove_single (l : Logger) (obs : Nat)
    (h2 : l.observers.count obs = 2) :
    ((l.remove_observer obs).2 = [Event.unregistered obs l.name]) ∧
    ((l.remove_observer obs).1.observers = l.observers.erase obs) ∧
    ((l.remove_observer obs).1.observers.count obs = 1) ∧
    (∀ ts lvl fmt args, l.log_level ≠ .OFF ∧ l.log_level.toInt ≤ lvl.toInt →
      (((l.remove_observer obs).1.log ts lvl fmt args).2.count
        (Event.newMessage obs
          ((l.remove_observer obs).1.entryFor ts lvl (MessageFormatter.format fmt args))) = 1)) ∧
    (((l.remove_observer obs).1.remove_observer obs).2
      = [Event.unregistered obs l.name]) ∧
    (((l.remove_observer obs).1.remove_observer obs).1.observers.count obs = 0) := by
  have hmem : obs ∈ l.observers := by
    rw [← List.count_pos_iff, h2]
    omega
  have hrm : l.remove_observer obs =
      ({ l with observers := l.observers.erase obs }, [Event.unregistered obs l.name]) := by
    simp [Logger.remove_observer, hmem]
  have hcount1 : (l.observers.erase obs).count obs = 1 := by
    rw [List.count_erase_self]
    omega
  have hmem1 : obs ∈ l.observers.erase obs := by
    rw [← List.count_pos_iff, hcount1]
    omega
  refine ⟨by rw [hrm], by rw [hrm], by rw [hrm]; exact hcount1, ?_, ?_, ?_⟩
  · intro ts lvl fmt args h
    simp only [hrm]
    rw [log_count_newMessage { l with observers := l.observers.erase obs }
      ts lvl fmt args obs h]
    exact hcount1
  · rw [hrm]
    simp [Logger.remove_observer, hmem1]
  · rw [hrm]
    simp only [Logger.remove_observer, if_pos hmem1]
    rw [List.count_erase_self]
    simp [hcount1]

/-- Witness for C9: observers `[4, 7, 7]`; one removal leaves `[4, 7]` with
one notification to 7 per accepted message; a second removal empties it. -/
theorem ulog_C9_witness :
    (Logger.remove_observer
      { name := [], console_enabled := true, buffer_enabled := false,
        log_level := .INFO, clean_enabled := true, buffer := none,
        observers := [4, 7, 7] } 7).1.observers.count 7 = 1 ∧
    ((Logger.remove_observer
      { name := [], console_enabled := true, buffer_enabled := false,
        log_level := .INFO, clean_enabled := true, buffer := none,
        observers := [4, 7, 7] } 7).1.log 0 .ERROR [104] []).2.count
        (Event.newMessage 7 ⟨0, .ERROR, [], [104]⟩) = 1 ∧
    ((Logger.remove_observer
      { name := [], console_enabled := true, buffer_enabled := false,
        log_level := .INFO, clean_enabled := true, buffer := none,
        observers := [4, 7, 7] } 7).1.remove_observer 7).1.observers.count 7 = 0 := by
  have h := ulog_C9_duplicate_remove_single
    { name := [], console_enabled := true, buffer_enabled := false,
      log_level := .INFO, clean_enabled := true, buffer := none,
      observers := [4, 7, 7] } 7 (by decide)
  refine ⟨h.2.2.1, ?_, h.2.2.2.2.2⟩
  have h4 := h.2.2.2.1 0 .ERROR [104] [] (by decide)
  exact h4

/-- Claim C2.  Supplier variants: each of the six levels has a `*_supplier` method
equal to the gated supplier logger at its level; for every threshold and
level, the thunk is invoked exactly once when the gate passes (the counter
advances by one and the message is emitted) and exactly zero times when the
gate rejects, including threshold `OFF` (the counter and the logger are
untouched and no event is produced). -/
theorem ulog_C2_supplier_zero_cost (l : Logger) (ts : Nat) (lvl : LogLevel)
    (m : List Nat) (n : Nat) :
    (∀ (σ : Type) (th : σ → σ × List Nat) (s : σ),
      l.trace_supplier ts th s = l.log_supplier ts .TRACE th s ∧
      l.debug_supplier ts th s = l.log_supplier ts .DEBUG th s ∧
      l.info_supplier ts th s = l.log_supplier ts .INFO th s ∧
      l.warn_supplier ts th s = l.log_supplier ts .WARN th s ∧
      l.error_supplier ts th s = l.log_supplier ts .ERROR th s ∧
      l.fatal_supplier ts th s = l.log_supplier ts .FATAL th s) ∧
    (l.log_level ≠ .OFF ∧ l.log_level.toInt ≤ lvl.toInt →
      (l.log_supplier ts lvl (countingThunk m) n).2 = n + 1 ∧
      (l.log_supplier ts lvl (countingThunk m) n).1 = l.emit ts lvl m) ∧
    (l.log_level = .OFF ∨ lvl.toInt < l.log_level.toInt →
      l.log_supplier ts lvl (countingThunk m) n = ((l, []), n)) ∧
    (∀ (σ : Type) (th : σ → σ × List Nat) (s : σ),
      (l.log_level ≠ .OFF ∧ l.log_level.toInt ≤ lvl.toInt →
        (l.log_supplier ts lvl th s).2 = (th s).1) ∧
      (l.log_level = .OFF ∨ lvl.toInt < l.log_level.toInt →
        (l.log_supplier ts lvl th s).2 = s)) := by
  refine ⟨fun σ th s => ⟨rfl, rfl, rfl, rfl, rfl, rfl⟩, ?_, ?_, ?_⟩
  · intro h
    have hcond : ¬(l.log_level = .OFF ∨ lvl.toInt < l.log_level.toInt) := by
      rintro (h1 | h2)
      · exact h.1 h1
      · omega
    rw [Logger.log_supplier, if_neg hcond]
    exact ⟨rfl, rfl⟩
  · intro h
    rw [Logger.log_supplier, if_pos h]
  · intro σ th s
    constructor
    · intro h
      have hcond : ¬(l.log_level = .OFF ∨ lvl.toInt < l.log_level.toInt) := by
        rintro (h1 | h2)
        · exact h.1 h1
        · omega
      rw [Logger.log_supplier, if_neg hcond]
    · intro h
      rw [Logger.log_supplier, if_pos h]

/-- Witness for C2: on a default (INFO) logger, an INFO supplier call invokes
the counting thunk once; with threshold OFF every level is rejected and the
thunk is never invoked. -/
theorem ulog_C2_witness :
    ((defaultLogger []).log_supplier 0 .INFO (countingThunk [109]) 5).2 = 6 ∧
    ((defaultLogger []).set_log_level .OFF).log_supplier 0 .FATAL
        (countingThunk [109]) 5 = ((((defaultLogger []).set_log_level .OFF), []), 5) := by
  constructor
  · exact ((ulog_C2_supplier_zero_cost (defaultLogger []) 0 .INFO [109] 5).2.1
      (by decide)).1
  · exact (ulog_C2_supplier_zero_cost ((defaultLogger []).set_log_level .OFF)
      0 .FATAL [109] 5).2.2.1 (by decide)

/-- Claim C8.  Registry get-or-create: `get_logger` returns the stored logger for a
name when present (unchanged registry) and otherwise stores and returns a
default-configured logger (console on, buffer off, level INFO); a second
lookup returns the very logger stored by the first.  The factory overload
invokes the factory exactly once when the name is absent and not at all when
present, and after any first creation a factory lookup returns the existing
instance without invoking its factory. -/
theorem ulog_C8_registry_idempotence (r : LoggerRegistry) (name : List Nat) :
    (r.loggers.lookup name = none →
      r.get_logger name =
        ({ loggers := (name, defaultLogger name) :: r.loggers }, defaultLogger name)) ∧
    ((defaultLogger name).console_enabled = true ∧
      (defaultLogger name).buffer_enabled = false ∧
      (defaultLogger name).log_level = .INFO) ∧
    (∀ L, r.loggers.lookup name = some L → r.get_logger name = (r, L)) ∧
    ((r.get_logger name).1.get_logger name
      = ((r.get_logger name).1, (r.get_logger name).2)) ∧
    (∀ L n, r.loggers.lookup name = none →
      r.get_logger_with_factory name (countingFactory L) n =
        (({ loggers := (name, L) :: r.loggers }, L), n + 1)) ∧
    (∀ (σ : Type) (f : σ → List Nat → σ × Logger) (s : σ) L,
      r.loggers.lookup name = some L →
      r.get_logger_with_factory name f s = ((r, L), s)) ∧
    (∀ (σ : Type) (f : σ → List Nat → σ × Logger) (s : σ),
      (r.get_logger name).1.get_logger_with_factory name f s
        = (((r.get_logger name).1, (r.get_logger name).2), s)) := by
  refine ⟨?_, ⟨rfl, rfl, rfl⟩, ?_, ?_, ?_, ?_, ?_⟩
  · intro h
    rw [LoggerRegistry.get_logger, h]
  · intro L h
    rw [LoggerRegistry.get_logger, h]
  · cases h : r.loggers.lookup name with
    | some L =>
      have hg : r.get_logger name = (r, L) := by rw [LoggerRegistry.get_logger, h]
      simp only [hg]
    | none =>
      have hg : r.get_logger name =
          ({ loggers := (name, defaultLogger name) :: r.loggers }, defaultLogger name) := by
        rw [LoggerRegistry.get_logger, h]
      simp only [hg]
      simp [LoggerRegistry.get_logger, List.lookup]
  · intro L n h
    rw [LoggerRegistry.get_logger_with_factory, h]
    rfl
  · intro σ f s L h
    rw [LoggerRegistry.get_logger_with_factory, h]
  · intro σ f s
    cases h : r.loggers.lookup name with
    | some L =>
      have hg : r.get_logger name = (r, L) := by rw [LoggerRegistry.get_logger, h]
      simp only [hg]
      rw [LoggerRegistry.get_logger_with_factory, h]
    | none =>
      have hg : r.get_logger name =
          ({ loggers := (name, defaultLogger name) :: r.loggers }, defaultLogger name) := by
        rw [LoggerRegistry.get_logger, h]
      simp only [hg]
      simp [LoggerRegistry.get_logger_with_factory, List.lookup]

/-- Witness for C8: an empty registry; a first lookup of name `"g"` creates
the default logger, a second returns it; the factory overload on the empty
registry invokes a counting factory exactly once, and not at all when the
name is already stored. -/
theorem ulog_C8_witness :
    LoggerRegistry.get_logger ⟨[]⟩ [103]
      = (⟨[([103], defaultLogger [103])]⟩, defaultLogger [103]) ∧
    LoggerRegistry.get_logger ⟨[([103], defaultLogger [103])]⟩ [103]
      = (⟨[([103], defaultLogger [103])]⟩, defaultLogger [103]) ∧
    LoggerRegistry.get_logger_with_factory ⟨[]⟩ [103]
        (countingFactory (defaultLogger [103])) 0
      = ((⟨[([103], defaultLogger [103])]⟩, defaultLogger [103]), 1) ∧
    LoggerRegistry.get_logger_with_factory ⟨[([103], defaultLogger [103])]⟩ [103]
        (countingFactory (defaultLogger [103])) 0
      = ((⟨[([103], defaultLogger [103])]⟩, defaultLogger [103]), 0) := by
  refine ⟨?_, ?_, ?_, ?_⟩
  · exact (ulog_C8_registry_idempotence ⟨[]⟩ [103]).1 (by simp [List.lookup])
  · exact (ulog_C8_registry_idempotence ⟨[([103], defaultLogger [103])]⟩ [103]).2.2.1
      (defaultLogger [103]) (by simp [List.lookup])
  · exact (ulog_C8_registry_idempotence ⟨[]⟩ [103]).2.2.2.2.1
      (defaultLogger [103]) 0 (by simp [List.lookup])
  · exact (ulog_C8_registry_idempotence ⟨[([103], defaultLogger [103])]⟩ [103]).2.2.2.2.2.1
      Nat (countingFactory (defaultLogger [103])) 0 (defaultLogger [103])
      (by simp [List.lookup])

/-- Helper: `clean_message_fuel` does not depend on the fuel as long as the
fuel is at least the length of the scanned bytes (every step of the scan
consumes at least one byte). -/
theorem clean_message_fuel_congr :
    ∀ (f1 : Nat) (s : List Nat) (f2 : Nat), s.length ≤ f1 → s.length ≤ f2 →
      clean_message_fuel f1 s = clean_message_fuel f2 s := by
  intro f1
  induction f1 with
  | zero =>
    intro s f2 h1 _
    have hs : s = [] := List.length_eq_zero.mp (Nat.le_zero.mp h1)
    subst hs
    rw [clean_message_fuel_nil, clean_message_fuel_nil]
  | succ f ih =>
    intro s f2 h1 h2
    cases s with
    | nil => rw [clean_message_fuel_nil, clean_message_fuel_nil]
    | cons ch rest =>
      cases f2 with
      | zero => simp at h2
      | succ g =>
        have hr1 : rest.length ≤ f := by
          simp only [List.length_cons] at h1
          omega
        have hr2 : rest.length ≤ g := by
          simp only [List.length_cons] at h2
          omega
        simp only [clean_message_fuel]
        by_cases hA : 0x80 ≤ ch
        · simp only [if_pos hA]
          by_cases hB : ch &&& 0xE0 = 0xC0
          · simp only [if_pos hB]
            cases rest with
            | nil => rw [clean_message_fuel_nil, clean_message_fuel_nil]
            | cons b1 rest2 =>
              have hx1 : rest2.length ≤ f := by
                simp only [List.length_cons] at hr1
                omega
              have hx2 : rest2.length ≤ g := by
                simp only [List.length_cons] at hr2
                omega
              show ch :: b1 :: clean_message_fuel f rest2
                = ch :: b1 :: clean_message_fuel g rest2
              rw [ih rest2 g hx1 hx2]
          · simp only [if_neg hB]
            by_cases hC : ch &&& 0xF0 = 0xE0
            · simp only [if_pos hC]
              match rest, hr1, hr2 with
              | [], _, _ => rw [clean_message_fuel_nil, clean_message_fuel_nil]
              | [b1], hr1, hr2 =>
                show char_to_hex ch ++ clean_message_fuel f [b1]
                  = char_to_hex ch ++ clean_message_fuel g [b1]
                rw [ih [b1] g (by simpa using hr1) (by simpa using hr2)]
              | b1 :: b2 :: rest3, hr1, hr2 =>
                show ch :: b1 :: b2 :: clean_message_fuel f rest3
                  = ch :: b1 :: b2 :: clean_message_fuel g rest3
                rw [ih rest3 g (by simp at hr1; omega) (by simp at hr2; omega)]
            · simp only [if_neg hC]
              by_cases hD : ch &&& 0xF8 = 0xF0
              · simp only [if_pos hD]
                match rest, hr1, hr2 with
                | [], _, _ => rw [clean_message_fuel_nil, clean_message_fuel_nil]
                | [b1], hr1, hr2 =>
                  show char_to_hex ch ++ clean_message_fuel f [b1]
                    = char_to_hex ch ++ clean_message_fuel g [b1]
                  rw [ih [b1] g (by simpa using hr1) (by simpa using hr2)]
                | [b1, b2], hr1, hr2 =>
                  show char_to_hex ch ++ clean_message_fuel f [b1, b2]
                    = char_to_hex ch ++ clean_message_fuel g [b1, b2]
                  rw [ih [b1, b2] g (by simpa using hr1) (by simpa using hr2)]
                | b1 :: b2 :: b3 :: rest4, hr1, hr2 =>
                  show ch :: b1 :: b2 :: b3 :: clean_message_fuel f rest4
                    = ch :: b1 :: b2 :: b3 :: clean_message_fuel g rest4
                  rw [ih rest4 g (by simp at hr1; omega) (by simp at hr2; omega)]
              · simp only [if_neg hD]
                rw [ih rest g hr1 hr2]
        · simp only [if_neg hA]
          by_cases hB : ch < 32
          · simp only [if_pos hB]
            by_cases hC : ch = 9 ∨ ch = 10 ∨ ch = 13 ∨ ch = 11 ∨ ch = 12
            · simp only [if_pos hC]
              rw [ih rest g hr1 hr2]
            · simp only [if_neg hC]
              rw [ih rest g hr1 hr2]
          · simp only [if_neg hB]
            rw [ih rest g hr1 hr2]

/-- Helper: masking with a submask factors through a wider mask. -/
theorem land_absorb_assoc (ch hi lo v : Nat) (h : ch &&& hi = v)
    (hab : hi &&& lo = lo) : ch &&& lo = v &&& lo := by
  calc ch &&& lo = ch &&& (hi &&& lo) := by rw [hab]
    _ = ch &&& hi &&& lo := (Nat.land_assoc ch hi lo).symm
    _ = v &&& lo := by rw [h]

/-- Helper: a byte whose masked value has the top bit set is at least 128. -/
theorem ge128_of_land (ch m v : Nat) (h : ch &&& m = v)
    (hm : m &&& 0x80 = 0x80) (hv : v &&& 0x80 = 0x80) : 0x80 ≤ ch := by
  have h1 : ch &&& 0x80 = v &&& 0x80 := land_absorb_assoc ch m 0x80 v h hm
  rw [hv] at h1
  calc (0x80 : Nat) = ch &&& 0x80 := h1.symm
    _ ≤ ch := Nat.and_le_left

/-- Helper: `hexDigit` of a value below 16 is an uppercase hex digit byte. -/
theorem hexDigit_upper (n : Nat) (h : n < 16) : isUpperHexDigitByte (hexDigit n) := by
  unfold hexDigit isUpperHexDigitByte
  split <;> omega

/-- Counterexample for C5 as stated: the byte `0x90` (144) is at least 32,
yet `clean_message` does not leave it unchanged — it is an invalid UTF-8 lead
byte (neither a 2-, 3- nor 4-byte lead pattern) and is hex-escaped even
though trailing bytes are available. -/
theorem ulog_C5_counterexample : clean_message [144, 65] ≠ [144, 65] := by decide

/-- Claim C5, amended.  Sanitization: `clean_message` maps each of HT, LF, CR, VT
and FF to a single space; maps every other byte below 32 (including NUL) to
the five-character escape `\xHH` with two uppercase hex digits; leaves every
byte in `[32, 0x80)` unchanged; copies 2-, 3- and 4-byte UTF-8 sequences
(identified by their lead-byte bit patterns) as whole units; and hex-escapes
a UTF-8 lead byte that has insufficient trailing bytes as well as any byte at
`0x80` or above whose bit pattern is not a valid 2-, 3- or 4-byte lead (a
stray continuation byte or a byte at `0xF8` or above). -/
theorem ulog_C5_sanitization (ch : Nat) (rest : List Nat) :
    (ch = 9 ∨ ch = 10 ∨ ch = 13 ∨ ch = 11 ∨ ch = 12 →
      clean_message (ch :: rest) = 32 :: clean_message rest) ∧
    (ch < 32 → ¬(ch = 9 ∨ ch = 10 ∨ ch = 13 ∨ ch = 11 ∨ ch = 12) →
      clean_message (ch :: rest) = char_to_hex ch ++ clean_message rest) ∧
    (32 ≤ ch → ch < 0x80 → clean_message (ch :: rest) = ch :: clean_message rest) ∧
    (∀ b1 rest2, ch &&& 0xE0 = 0xC0 → rest = b1 :: rest2 →
      clean_message (ch :: rest) = ch :: b1 :: clean_message rest2) ∧
    (ch &&& 0xE0 = 0xC0 → rest = [] →
      clean_message (ch :: rest) = char_to_hex ch) ∧
    (∀ b1 b2 rest3, ch &&& 0xF0 = 0xE0 → rest = b1 :: b2 :: rest3 →
      clean_message (ch :: rest) = ch :: b1 :: b2 :: clean_message rest3) ∧
    (ch &&& 0xF0 = 0xE0 → rest.length < 2 →
      clean_message (ch :: rest) = char_to_hex ch ++ clean_message rest) ∧
    (∀ b1 b2 b3 rest4, ch &&& 0xF8 = 0xF0 → rest = b1 :: b2 :: b3 :: rest4 →
      clean_message (ch :: rest) = ch :: b1 :: b2 :: b3 :: clean_message rest4) ∧
    (ch &&& 0xF8 = 0xF0 → rest.length < 3 →
      clean_message (ch :: rest) = char_to_hex ch ++ clean_message rest) ∧
    (0x80 ≤ ch → ch &&& 0xE0 ≠ 0xC0 → ch &&& 0xF0 ≠ 0xE0 → ch &&& 0xF8 ≠ 0xF0 →
      clean_message (ch :: rest) = char_to_hex ch ++ clean_message rest) ∧
    (ch < 256 →
      char_to_hex ch = [92, 120, hexDigit (ch / 16), hexDigit (ch % 16)] ∧
      isUpperHexDigitByte (hexDigit (ch / 16)) ∧
      isUpperHexDigitByte (hexDigit (ch % 16))) := by
  refine ⟨?_, ?_, ?_, ?_, ?_, ?_, ?_, ?_, ?_, ?_, ?_⟩
  · intro h
    have hA : ¬ 0x80 ≤ ch := by rcases h with h|h|h|h|h <;> omega
    have hB : ch < 32 := by rcases h with h|h|h|h|h <;> omega
    simp only [clean_message, List.length_cons, clean_message_fuel]
    rw [if_neg hA, if_pos hB, if_pos h]
  · intro hB hC
    have hA : ¬ 0x80 ≤ ch := by omega
    simp only [clean_message, List.length_cons, clean_message_fuel]
    rw [if_neg hA, if_pos hB, if_neg hC]
  · intro h32 h128
    have hA : ¬ 0x80 ≤ ch := by omega
    have hB : ¬ ch < 32 := by omega
    simp only [clean_message, List.length_cons, clean_message_fuel]
    rw [if_neg hA, if_neg hB]
  · intro b1 rest2 hpat hrest
    subst hrest
    have hA : 0x80 ≤ ch := ge128_of_land ch 0xE0 0xC0 hpat (by decide) (by decide)
    simp only [clean_message, List.length_cons, clean_message_fuel]
    rw [if_pos hA, if_pos hpat]
    show ch :: b1 :: clean_message_fuel (rest2.length + 1) rest2
      = ch :: b1 :: clean_message_fuel rest2.length rest2
    rw [clean_message_fuel_congr (rest2.length + 1) rest2 rest2.length
      (by omega) (by omega)]
  · intro hpat hrest
    subst hrest
    have hA : 0x80 ≤ ch := ge128_of_land ch 0xE0 0xC0 hpat (by decide) (by decide)
    simp only [clean_message, List.length_cons, List.length_nil, clean_message_fuel]
    rw [if_pos hA, if_pos hpat]
    show char_to_hex ch ++ clean_message_fuel 0 [] = char_to_hex ch
    rw [clean_message_fuel_nil]
    simp
  · intro b1 b2 rest3 hpat hrest
    subst hrest
    have hA : 0x80 ≤ ch := ge128_of_land ch 0xF0 0xE0 hpat (by decide) (by decide)
    have hB : ch &&& 0xE0 ≠ 0xC0 := by
      have h1 := land_absorb_assoc ch 0xF0 0xE0 0xE0 hpat (by decide)
      rw [(by decide : (0xE0 &&& 0xE0 : Nat) = 0xE0)] at h1
      rw [h1]
      decide
    simp only [clean_message, List.length_cons, clean_message_fuel]
    rw [if_pos hA, if_neg hB, if_pos hpat]
    show ch :: b1 :: b2 :: clean_message_fuel (rest3.length + 2) rest3
      = ch :: b1 :: b2 :: clean_message_fuel rest3.length rest3
    rw [clean_message_fuel_congr (rest3.length + 2) rest3 rest3.length
      (by omega) (by omega)]
  · intro hpat hlen
    have hA : 0x80 ≤ ch := ge128_of_land ch 0xF0 0xE0 hpat (by decide) (by decide)
    have hB : ch &&& 0xE0 ≠ 0xC0 := by
      have h1 := land_absorb_assoc ch 0xF0 0xE0 0xE0 hpat (by decide)
      rw [(by decide : (0xE0 &&& 0xE0 : Nat) = 0xE0)] at h1
      rw [h1]
      decide
    rcases rest with _ | ⟨b1, _ | ⟨b2, rest'⟩⟩
    · simp only [clean_message, List.length_cons, List.length_nil, clean_message_fuel]
      rw [if_pos hA, if_neg hB, if_pos hpat]
    · simp only [clean_message, List.length_cons, List.length_nil, clean_message_fuel]
      rw [if_pos hA, if_neg hB, if_pos hpat]
    · simp only [List.length_cons] at hlen
      omega
  · intro b1 b2 b3 rest4 hpat hrest
    subst hrest
    have hA : 0x80 ≤ ch := ge128_of_land ch 0xF8 0xF0 hpat (by decide) (by decide)
    have hB : ch &&& 0xE0 ≠ 0xC0 := by
      have h1 := land_absorb_assoc ch 0xF8 0xE0 0xF0 hpat (by decide)
      rw [(by decide : (0xF0 &&& 0xE0 : Nat) = 0xE0)] at h1
      rw [h1]
      decide
    have hC : ch &&& 0xF0 ≠ 0xE0 := by
      have h1 := land_absorb_assoc ch 0xF8 0xF0 0xF0 hpat (by decide)
      rw [(by decide : (0xF0 &&& 0xF0 : Nat) = 0xF0)] at h1
      rw [h1]
      decide
    simp only [clean_message, List.length_cons, clean_message_fuel]
    rw [if_pos hA, if_neg hB, if_neg hC, if_pos hpat]
    show ch :: b1 :: b2 :: b3 :: clean_message_fuel (rest4.length + 3) rest4
      = ch :: b1 :: b2 :: b3 :: clean_message_fuel rest4.length rest4
    rw [clean_message_fuel_congr (rest4.length + 3) rest4 rest4.length
      (by omega) (by omega)]
  · intro hpat hlen
    have hA : 0x80 ≤ ch := ge128_of_land ch 0xF8 0xF0 hpat (by decide) (by decide)
    have hB : ch &&& 0xE0 ≠ 0xC0 := by
      have h1 := land_absorb_assoc ch 0xF8 0xE0 0xF0 hpat (by decide)
      rw [(by decide : (0xF0 &&& 0xE0 : Nat) = 0xE0)] at h1
      rw [h1]
      decide
    have hC : ch &&& 0xF0 ≠ 0xE0 := by
      have h1 := land_absorb_assoc ch 0xF8 0xF0 0xF0 hpat (by decide)
      rw [(by decide : (0xF0 &&& 0xF0 : Nat) = 0xF0)] at h1
      rw [h1]
      decide
    rcases rest with _ | ⟨b1, _ | ⟨b2, _ | ⟨b3, rest'⟩⟩⟩
    · simp only [clean_message, List.length_cons, List.length_nil, clean_message_fuel]
      rw [if_pos hA, if_neg hB, if_neg hC, if_pos hpat]
    · simp only [clean_message, List.length_cons, List.length_nil, clean_message_fuel]
      rw [if_pos hA, if_neg hB, if_neg hC, if_pos hpat]
    · simp only [clean_message, List.length_cons, List.length_nil, clean_message_fuel]
      rw [if_pos hA, if_neg hB, if_neg hC, if_pos hpat]
    · simp only [List.length_cons] at hlen
      omega
  · intro hA hB hC hD
    simp only [clean_message, List.length_cons, clean_message_fuel]
    rw [if_pos hA, if_neg hB, if_neg hC, if_neg hD]
  · intro h256
    have hdiv : ch / 16 < 16 := by omega
    have hmod : ch % 16 < 16 := by omega
    refine ⟨?_, hexDigit_upper _ hdiv, hexDigit_upper _ hmod⟩
    unfold char_to_hex
    rw [Nat.mod_eq_of_lt hdiv]

/-- Witness for C5 at concrete bytes: a tab becomes a space, NUL becomes its
hex escape, a 3-byte UTF-8 sequence is copied whole, a 2-byte lead with no
trailing byte is hex-escaped, and the byte 255 (an invalid lead) is
hex-escaped despite an available trailing byte. -/
theorem ulog_C5_witness :
    clean_message [9, 97] = 32 :: clean_message [97] ∧
    clean_message [0] = char_to_hex 0 ++ clean_message [] ∧
    clean_message [226, 130, 172] = 226 :: 130 :: 172 :: clean_message [] ∧
    clean_message [195] = char_to_hex 195 ∧
    clean_message [255, 65] = char_to_hex 255 ++ clean_message [65] ∧
    char_to_hex 0 = [92, 120, hexDigit 0, hexDigit 0] := by
  refine ⟨?_, ?_, ?_, ?_, ?_, ?_⟩
  · exact (ulog_C5_sanitization 9 [97]).1 (by decide)
  · exact (ulog_C5_sanitization 0 []).2.1 (by decide) (by decide)
  · exact (ulog_C5_sanitization 226 [130, 172]).2.2.2.2.2.1 130 172 []
      (by decide) rfl
  · exact (ulog_C5_sanitization 195 []).2.2.2.2.1 (by decide) rfl
  · exact (ulog_C5_sanitization 255 [65]).2.2.2.2.2.2.2.2.2.1
      (by decide) (by decide) (by decide) (by decide)
  · exact ((ulog_C5_sanitization 0 []).2.2.2.2.2.2.2.2.2.2 (by decide)).1
